import Mathlib

/-!
A shallow embedding of the GolfCaddy strokes-gained shot-recommendation engine
(`strokes_gained_engine.py`) together with proofs about the claims of its
specification.  Python floats are modelled as real numbers, the Monte Carlo
random draws become explicit lists of standard-normal samples, and string
handling (`.lower()`, `.strip()`, dict lookups with defaults) is modelled
directly on `String`.
-/

namespace GolfCaddy

/-- Model of Python `str.lower()`. -/
def pyLower (s : String) : String := ⟨s.data.map Char.toLower⟩

/-- Model of Python `str.strip()`: drop whitespace from both ends. -/
def pyStrip (s : String) : String :=
  ⟨((s.data.dropWhile Char.isWhitespace).reverse.dropWhile Char.isWhitespace).reverse⟩

/-- `FULL_WEDGE_CARRIES` dict: full-swing wedge carries at 100 mph. -/
def FULL_WEDGE_CARRIES (club : String) : ℝ :=
  if club = "PW" then 121
  else if club = "GW" then 107
  else if club = "SW" then 92
  else if club = "LW" then 78
  else 0

/-- `FULL_BAG_BASE`: (club, ball_speed, launch, spin, carry_center, total_center). -/
def FULL_BAG_BASE : List (String × ℝ × ℝ × ℝ × ℝ × ℝ) :=
  [("Driver", 148, 13.0, 2500, 233, 253),
   ("3W", 140, 14.5, 3300, 216, 233),
   ("3H", 135, 16.0, 3900, 202, 220),
   ("4i", 128, 14.5, 4600, 182, 194),
   ("5i", 122, 15.5, 5000, 172, 185),
   ("6i", 116, 17.0, 5400, 162, 172),
   ("7i", 110, 18.5, 6200, 151, 161),
   ("8i", 104, 20.5, 7000, 139, 149),
   ("9i", 98, 23.0, 7800, 127, 137),
   ("PW", 92, 28.0, 8500, 118, 124),
   ("GW", 86, 30.0, 9000, 104, 110),
   ("SW", 81, 32.0, 9500, 89, 95),
   ("LW", 75, 34.0, 10500, 75, 81)]

/-- `SHOT_MULTIPLIERS.get(shot_type, 1.0)`. -/
def shot_multiplier (shot_type : String) : ℝ :=
  if shot_type = "Full" then 1.00
  else if shot_type = "Choke-Down" then 0.94
  else if shot_type = "3/4" then 0.80
  else if shot_type = "1/2" then 0.60
  else if shot_type = "1/4" then 0.40
  else 1.0

/-- `WEDGE_PROFILES.get((club, shot_type))`, restricted to the `carry_mult`
field (the only one read by `_build_scoring_shots`). -/
def wedge_profile_carry (club shot_type : String) : Option ℝ :=
  if club = "PW" then
    (if shot_type = "Full" then some 1.00
     else if shot_type = "Choke-Down" then some 0.94
     else if shot_type = "3/4" then some 0.82
     else if shot_type = "1/2" then some 0.62
     else if shot_type = "1/4" then some 0.42
     else none)
  else if club = "GW" then
    (if shot_type = "Full" then some 1.00
     else if shot_type = "Choke-Down" then some 0.94
     else if shot_type = "3/4" then some 0.80
     else if shot_type = "1/2" then some 0.60
     else if shot_type = "1/4" then some 0.40
     else none)
  else if club = "SW" then
    (if shot_type = "Full" then some 1.00
     else if shot_type = "Choke-Down" then some 0.94
     else if shot_type = "3/4" then some 0.80
     else if shot_type = "1/2" then some 0.60
     else if shot_type = "1/4" then some 0.40
     else none)
  else if club = "LW" then
    (if shot_type = "Full" then some 1.00
     else if shot_type = "Choke-Down" then some 0.92
     else if shot_type = "3/4" then some 0.78
     else if shot_type = "1/2" then some 0.58
     else if shot_type = "1/4" then some 0.38
     else none)
  else none

/-- `SCORING_DEFS`: (club, shot type, trajectory). -/
def SCORING_DEFS : List (String × String × String) :=
  [("PW", "Full", "Medium-High"), ("PW", "Choke-Down", "Medium"), ("PW", "3/4", "Medium"),
   ("SW", "Full", "High"), ("LW", "Full", "High"), ("SW", "3/4", "Medium-High"),
   ("PW", "1/2", "Medium-Low"), ("LW", "3/4", "Medium"), ("SW", "1/2", "Medium-Low"),
   ("PW", "1/4", "Low"), ("LW", "1/2", "Medium-Low"), ("GW", "1/4", "Low"),
   ("SW", "1/4", "Low"), ("LW", "1/4", "Low"), ("GW", "Full", "Medium-High"),
   ("GW", "Choke-Down", "Medium"), ("GW", "3/4", "Medium"), ("GW", "1/2", "Medium-Low")]

/-- `WIND_STRENGTH_MAP.get(label, 0)`. -/
def WIND_STRENGTH_MAP (label : String) : ℝ :=
  if label = "none" then 0
  else if label = "light" then 5
  else if label = "medium" then 10
  else if label = "heavy" then 20
  else 0

/-- `FAIRWAY_WIDTHS.get((label or "medium").lower(), 35.0)` (`_fairway_width_yards`). -/
def fairway_width_yards (label : String) : ℝ :=
  let l := pyLower (if label = "" then "medium" else label)
  if l = "narrow" then 25.0
  else if l = "medium" then 35.0
  else if l = "wide" then 45.0
  else 35.0

/-- `_scale_value`: scale a baseline value slightly nonlinearly with driver speed. -/
noncomputable def scale_value (base_value driver_speed_mph : ℝ) : ℝ :=
  base_value * (driver_speed_mph / 100) ^ (1.03 : ℝ)

/-- `adjust_for_wind`: tuned wind model. -/
noncomputable def adjust_for_wind (target : ℝ) (wind_dir wind_strength_label : String) : ℝ :=
  let label := pyLower (pyStrip wind_strength_label)
  let wind_mph := WIND_STRENGTH_MAP label
  let scale := max 0.5 (min (target / 150) 1.2)
  let wd := pyLower wind_dir
  if wd = "into" then target + wind_mph * 0.9 * scale
  else if wd = "down" then target - wind_mph * 0.4 * scale
  else if wd = "cross" then target + wind_mph * 0.1 * scale
  else target

/-- `get_dispersion_sigma`: 1D distance dispersion (std dev, yards) per category. -/
def get_dispersion_sigma (category : String) : ℝ :=
  let cat := pyLower category
  if cat = "scoring_wedge" then 5.0
  else if cat = "short_iron" then 7.0
  else if cat = "mid_iron" then 8.0
  else 10.0

/-- `get_lateral_sigma`: lateral dispersion std dev, relative to distance dispersion. -/
def get_lateral_sigma (category : String) : ℝ :=
  let cat := pyLower category
  let base := get_dispersion_sigma cat
  if cat = "scoring_wedge" then base * 0.7
  else if cat = "short_iron" then base * 0.8
  else if cat = "mid_iron" then base * 0.9
  else base * 1.0

/-- `_club_category`: map a club name to a dispersion category. -/
def club_category (club : String) : String :=
  if club ∈ ["PW", "GW", "SW", "LW"] then "scoring_wedge"
  else if club ∈ ["9i", "8i"] then "short_iron"
  else if club ∈ ["7i", "6i", "5i"] then "mid_iron"
  else "long"

/-- `_estimate_roll_from_spin`: adjust roll-out by spin, firmness and category. -/
noncomputable def estimate_roll_from_spin (base_roll spin_rpm : ℝ)
    (green_firmness_label category : String) : ℝ :=
  let firmness := pyLower (if green_firmness_label = "" then "Medium" else green_firmness_label)
  let cat := pyLower category
  let ref_spin : ℝ := 5500.0
  let spin_quot := max 0.5 (min (spin_rpm / ref_spin) 1.8)
  let firm_mult := if firmness = "soft" then 0.6 else if firmness = "firm" then 1.4 else 1.0
  let cat_mult :=
    if cat = "scoring_wedge" then 0.5
    else if cat = "short_iron" then 0.8
    else if cat = "mid_iron" then 1.0
    else 1.3
  max 0.0 (base_roll * firm_mult * cat_mult / spin_quot)

/-- A row of the full-bag table produced by `_build_full_bag`. -/
structure BagRow where
  club : String
  ball_speed : ℝ
  launch : ℝ
  spin : ℝ
  carry : ℝ
  total : ℝ

instance : Inhabited BagRow := ⟨⟨"", 0, 0, 0, 0, 0⟩⟩

/-- A candidate shot record as produced by the bag builder. -/
structure Candidate where
  club : String
  shot_type : String
  trajectory : String
  category : String
  carry : ℝ
  total : ℝ

instance : Inhabited Candidate := ⟨⟨"", "", "", "", 0, 0⟩⟩

/-- `_build_full_bag`: full bag distances for a driver speed, simple carry/roll model. -/
noncomputable def build_full_bag (driver_speed_mph : ℝ) (green_firmness_label : String) :
    List BagRow :=
  FULL_BAG_BASE.map (fun e =>
    let club := e.1
    let bs := e.2.1
    let launch := e.2.2.1
    let spin := e.2.2.2.1
    let carry_base := e.2.2.2.2.1
    let total_base := e.2.2.2.2.2
    let cat := club_category club
    let bs_scaled := scale_value bs driver_speed_mph
    let carry_scaled := scale_value carry_base driver_speed_mph
    let base_roll := max 0.0 (total_base - carry_base)
    let roll_adj := estimate_roll_from_spin base_roll spin green_firmness_label cat
    { club := club, ball_speed := bs_scaled, launch := launch, spin := spin,
      carry := carry_scaled, total := carry_scaled + roll_adj })

/-- `_build_scoring_shots`: all wedge scoring shots for a driver speed. -/
noncomputable def build_scoring_shots (driver_speed_mph : ℝ) : List Candidate :=
  SCORING_DEFS.map (fun e =>
    let club := e.1
    let st := e.2.1
    let traj := e.2.2
    let base_full_carry := scale_value (FULL_WEDGE_CARRIES club) driver_speed_mph
    let carry :=
      match wedge_profile_carry club st with
      | some m => base_full_carry * m
      | none => base_full_carry * shot_multiplier st
    { club := club, shot_type := st, trajectory := traj,
      category := club_category club, carry := carry, total := carry })

/-- `build_all_candidate_shots`: public entrypoint returning
(all shots, scoring shots, full bag). -/
noncomputable def build_all_candidate_shots (driver_speed_mph : ℝ) :
    List Candidate × List Candidate × List BagRow :=
  let full_bag := build_full_bag driver_speed_mph "Medium"
  let scoring_shots := build_scoring_shots driver_speed_mph
  let from_bag :=
    (full_bag.filter (fun row => !(["PW", "GW", "SW", "LW"].contains row.club))).map
      (fun row =>
        { club := row.club, shot_type := "Full", trajectory := "Stock",
          category := club_category row.club, carry := row.carry, total := row.total })
  (from_bag ++ scoring_shots, scoring_shots, full_bag)

/-- The `_EXPECTED_STROKES_BY_LIE["fairway"]` anchor table. -/
def fairwayTable : List (ℝ × ℝ) :=
  [(0.0, 1.00), (3.0, 1.07), (8.0, 1.25), (20.0, 1.65), (40.0, 1.90), (80.0, 2.20),
   (120.0, 2.55), (160.0, 2.80), (200.0, 3.00), (240.0, 3.25), (280.0, 3.50), (360.0, 3.90)]

/-- The `_EXPECTED_STROKES_BY_LIE["rough"]` anchor table. -/
def roughTable : List (ℝ × ℝ) :=
  [(0.0, 1.05), (3.0, 1.12), (8.0, 1.35), (20.0, 1.80), (40.0, 2.05), (80.0, 2.45),
   (120.0, 2.80), (160.0, 3.05), (200.0, 3.30), (240.0, 3.60), (280.0, 3.85), (360.0, 4.25)]

/-- The `_EXPECTED_STROKES_BY_LIE["sand"]` anchor table. -/
def sandTable : List (ℝ × ℝ) :=
  [(0.0, 1.10), (3.0, 1.20), (8.0, 1.45), (20.0, 1.95), (40.0, 2.25), (80.0, 2.70),
   (120.0, 3.10), (160.0, 3.40), (200.0, 3.70), (240.0, 4.00), (280.0, 4.30), (360.0, 4.70)]

/-- The `_EXPECTED_STROKES_BY_LIE["recovery"]` anchor table. -/
def recoveryTable : List (ℝ × ℝ) :=
  [(0.0, 1.20), (10.0, 1.60), (30.0, 2.10), (60.0, 2.60), (100.0, 3.10), (150.0, 3.60),
   (220.0, 4.10), (300.0, 4.60), (380.0, 5.00)]

/-- The `_EXPECTED_STROKES_BY_LIE["green"]` anchor table. -/
def greenTable : List (ℝ × ℝ) :=
  [(0.0, 1.00), (3.0, 1.20), (8.0, 1.40), (20.0, 1.80)]

/-- `_EXPECTED_STROKES_BY_LIE.get(lie, fairway)`: table select with fairway fallback. -/
def expected_strokes_table (lie : String) : List (ℝ × ℝ) :=
  if lie = "fairway" then fairwayTable
  else if lie = "rough" then roughTable
  else if lie = "sand" then sandTable
  else if lie = "recovery" then recoveryTable
  else if lie = "green" then greenTable
  else fairwayTable

/-- The last anchor of a table, scanning from an accumulator (`table[-1]`). -/
def last_pair : List (ℝ × ℝ) → ℝ × ℝ → ℝ × ℝ
  | [], acc => acc
  | p :: rest, _ => last_pair rest p

/-- One linear-interpolation segment: the value at `d` on the chord from
`(d0, s0)` to `(d1, s1)`, with the source's degenerate-segment guard. -/
noncomputable def lerp_seg (d0 s0 d1 s1 d : ℝ) : ℝ :=
  if d1 = d0 then s0 else s0 + (d - d0) / (d1 - d0) * (s1 - s0)

/-- The scan of the source's interpolation loop: find the first segment
`d0 ≤ d ≤ d1` and interpolate there, else keep the default (`table[-1][1]`). -/
noncomputable def interp_segments : List (ℝ × ℝ) → ℝ → ℝ → ℝ
  | p :: q :: rest, d, dflt =>
      if p.1 ≤ d ∧ d ≤ q.1 then lerp_seg p.1 p.2 q.1 q.2 d
      else interp_segments (q :: rest) d dflt
  | _, _, dflt => dflt

/-- Clamped table interpolation: value of the first anchor below the domain,
of the last anchor above it, else the segment scan. -/
noncomputable def table_interp (table : List (ℝ × ℝ)) (d : ℝ) : ℝ :=
  match table with
  | [] => 0
  | p :: rest =>
      let lastp := last_pair rest p
      if d ≤ p.1 then p.2
      else if lastp.1 ≤ d then lastp.2
      else interp_segments (p :: rest) d lastp.2

/-- `_interp_expected_strokes`: interpolate the per-lie table at a clamped
distance, then scale by `max(0.8, profile_factor)`. -/
noncomputable def interp_expected_strokes (distance_yards : ℝ) (lie_type : String)
    (profile_factor : ℝ) : ℝ :=
  let d := max 0.0 distance_yards
  let lie := pyLower (if lie_type = "" then "fairway" else lie_type)
  table_interp (expected_strokes_table lie) d * max 0.8 profile_factor

/-- `_strategy_penalty_multiplier`. -/
def strategy_penalty_multiplier (strategy_label : String) : ℝ :=
  let lab := if strategy_label = "" then "Balanced" else strategy_label
  if lab = "Conservative" then 1.3
  else if lab = "Aggressive" then 0.7
  else 1.0

/-- `_trouble_severity`: None/Mild/Severe → extra strokes per bad miss. -/
def trouble_severity (label : String) : ℝ :=
  let l := pyLower (if label = "" then "None" else label)
  if l = "mild" then 0.4
  else if l = "severe" then 1.0
  else 0.0

/-- `math.erf`, as the real error function. -/
noncomputable def erf (x : ℝ) : ℝ :=
  2 / Real.sqrt Real.pi * ∫ t in (0 : ℝ)..x, Real.exp (-t ^ 2)

/-- `_normal_cdf`: standard normal CDF via the error function. -/
noncomputable def normal_cdf (x : ℝ) : ℝ :=
  0.5 * (1 + erf (x / Real.sqrt 2))

/-- The effective dispersion used by `_simulate_candidate_sg`:
`max(0.1, base * skill_factor)`. -/
noncomputable def effective_sigma (base skill_factor : ℝ) : ℝ :=
  max 0.1 (base * skill_factor)

/-- The lateral trouble threshold of `_simulate_candidate_sg`:
`0.7 * green_width / 2` when a green width is given, else 12 yards. -/
noncomputable def side_threshold (green_width : ℝ) : ℝ :=
  if green_width > 0 then 0.7 * (green_width / 2) else 12.0

/-- One Monte Carlo draw of `_simulate_candidate_sg`: given the depth/lateral
means and sigmas and a pair of standard-normal samples, the per-draw strokes
value (base expected strokes from the remaining distance, plus the
short/long/left/right trouble penalties). -/
noncomputable def draw_sample (mu_depth sigma_depth sigma_lat : ℝ) (base_lie : String)
    (profile_factor short_sev long_sev left_sev right_sev strat_mult thresh : ℝ)
    (z : ℝ × ℝ) : ℝ :=
  let de := mu_depth + sigma_depth * z.1
  let le := 0 + sigma_lat * z.2
  let remaining := Real.sqrt (de ^ 2 + le ^ 2)
  let lie_for_this := if remaining ≤ 5.0 then "green" else base_lie
  let s0 := 1.0 + interp_expected_strokes remaining lie_for_this profile_factor
  let s1 := if short_sev > 0 ∧ de < -5.0 then s0 + short_sev * strat_mult else s0
  let s2 := if long_sev > 0 ∧ de > 5.0 then s1 + long_sev * strat_mult else s1
  let s3 := if left_sev > 0 ∧ le < -thresh then s2 + left_sev * strat_mult else s2
  let s4 := if right_sev > 0 ∧ le > thresh then s3 + right_sev * strat_mult else s3
  s4

/-- `_simulate_candidate_sg`: Monte Carlo strokes-gained estimate for one
candidate.  The `n_sim` random draws of the source become the explicit list
`zdraws` of standard-normal (depth, lateral) samples.
Returns `(expected_strokes_after, strokes_gained)`. -/
noncomputable def simulate_candidate_sg (candidate : Candidate) (target_total : ℝ)
    (short_trouble_label long_trouble_label left_trouble_label right_trouble_label
      strategy_label : String)
    (start_distance_yards : ℝ) (start_surface : String) (skill_factor : ℝ)
    (green_firmness_label : String) (green_width pin_lateral_offset : ℝ)
    (zdraws : List (ℝ × ℝ)) (profile_factor : ℝ) : ℝ × ℝ :=
  let cat := candidate.category
  let sigma_depth := effective_sigma (get_dispersion_sigma cat) skill_factor
  let sigma_lat := effective_sigma (get_lateral_sigma cat) skill_factor
  let mu_depth := candidate.total - target_total
  let outcome_lie := if start_surface = "" then "fairway" else start_surface
  let samples := zdraws.map (draw_sample mu_depth sigma_depth sigma_lat outcome_lie
    profile_factor
    (trouble_severity short_trouble_label) (trouble_severity long_trouble_label)
    (trouble_severity left_trouble_label) (trouble_severity right_trouble_label)
    (strategy_penalty_multiplier strategy_label) (side_threshold green_width))
  let expected_after := samples.sum / (zdraws.length : ℝ)
  let baseline_from_here :=
    interp_expected_strokes start_distance_yards start_surface profile_factor
  (expected_after, baseline_from_here - expected_after)

/-- One ranked recommendation record. -/
structure Ranked where
  club : String
  shot_type : String
  trajectory : String
  category : String
  carry : ℝ
  total : ℝ
  diff : ℝ
  score : ℝ
  expected_strokes : ℝ
  sg : ℝ
  reason : String

instance : Inhabited Ranked := ⟨⟨"", "", "", "", 0, 0, 0, 0, 0, 0, ""⟩⟩

/-- The rationale string assembled by `recommend_shots_with_sg`. -/
noncomputable def build_reason (diff sg : ℝ)
    (short_trouble_label long_trouble_label left_trouble_label right_trouble_label :
      String) : String :=
  let p1 :=
    if |diff| ≤ 5 then "Distances match the plays-like yardage closely."
    else if diff < -5 then "Tends to finish a bit short of the plays-like yardage."
    else "Tends to finish a bit past the plays-like yardage."
  let parts := [p1]
  let parts :=
    if short_trouble_label ≠ "None" ∨ long_trouble_label ≠ "None" ∨
        left_trouble_label ≠ "None" ∨ right_trouble_label ≠ "None" then
      parts ++ ["Considers short, long, and lateral trouble when evaluating risk."]
    else parts
  let parts :=
    if sg > 0.15 then
      parts ++ ["Strong strokes-gained profile compared with a typical shot from here."]
    else if sg > 0.05 then
      parts ++ ["Slightly positive strokes-gained expectation from this position."]
    else if sg < -0.15 then
      parts ++ ["Higher-risk or lower-value outcome on average compared with safer options."]
    else parts
  String.intercalate " " parts

/-- The candidate filter of `recommend_shots_with_sg`: keep candidates with
`0.5 * target ≤ total ≤ 1.5 * target`. -/
noncomputable def filter_candidates (target_total : ℝ) : List Candidate → List Candidate
  | [] => []
  | c :: cs =>
      if c.total < 0.5 * target_total then filter_candidates target_total cs
      else if c.total > 1.5 * target_total then filter_candidates target_total cs
      else c :: filter_candidates target_total cs

/-- Evaluation of one filtered candidate inside `recommend_shots_with_sg`. -/
noncomputable def evaluate_candidate (target_total : ℝ)
    (short_trouble_label long_trouble_label left_trouble_label right_trouble_label
      green_firmness_label strategy_label : String)
    (start_distance_yards : ℝ) (start_surface : String)
    (skill_factor pin_lateral_offset green_width : ℝ)
    (profile_factor : ℝ) (zdraws : List (ℝ × ℝ)) (c : Candidate) : Ranked :=
  let diff := c.total - target_total
  let res := simulate_candidate_sg c target_total short_trouble_label long_trouble_label
    left_trouble_label right_trouble_label strategy_label start_distance_yards
    start_surface skill_factor green_firmness_label green_width pin_lateral_offset
    zdraws profile_factor
  let legacy_score := -|diff| - 0.2 * get_dispersion_sigma c.category
  { club := c.club, shot_type := c.shot_type, trajectory := c.trajectory,
    category := c.category, carry := c.carry, total := c.total, diff := diff,
    score := legacy_score, expected_strokes := res.1, sg := res.2,
    reason := build_reason diff res.2 short_trouble_label long_trouble_label
      left_trouble_label right_trouble_label }

/-- The descending sort key order of `recommend_shots_with_sg`:
`a` may come before `b` when `(a.sg, a.score)` is lexicographically ≥
`(b.sg, b.score)`. -/
def rankGE (a b : Ranked) : Prop :=
  b.sg < a.sg ∨ (a.sg = b.sg ∧ b.score ≤ a.score)

noncomputable instance : DecidableRel rankGE := fun _ _ => Classical.propDecidable _

instance : IsTotal Ranked rankGE where
  total a b := by
    rcases lt_trichotomy a.sg b.sg with h | h | h
    · exact Or.inr (Or.inl h)
    · rcases le_total a.score b.score with hs | hs
      · exact Or.inr (Or.inr ⟨h.symm, hs⟩)
      · exact Or.inl (Or.inr ⟨h, hs⟩)
    · exact Or.inl (Or.inl h)

instance : IsTrans Ranked rankGE where
  trans a b c hab hbc := by
    rcases hab with h1 | ⟨h1, h1'⟩ <;> rcases hbc with h2 | ⟨h2, h2'⟩
    · exact Or.inl (h2.trans h1)
    · exact Or.inl (h2 ▸ h1)
    · exact Or.inl (h1 ▸ h2)
    · exact Or.inr ⟨h1.trans h2, h2'.trans h1'⟩

/-- `recommend_shots_with_sg`: filter candidates to the distance window,
evaluate each with its own block of random draws (`zdraws i` is the draw list
for the `i`-th filtered candidate, replacing the source's `n_sim` fresh
samples), sort by `(sg, score)` descending (Python's stable sort), and
truncate to `top_n`. -/
noncomputable def recommend_shots_with_sg (target_total : ℝ) (candidates : List Candidate)
    (short_trouble_label long_trouble_label left_trouble_label right_trouble_label
      green_firmness_label strategy_label : String)
    (start_distance_yards : ℝ) (start_surface : String)
    (front_yards back_yards skill_factor pin_lateral_offset green_width : ℝ)
    (zdraws : ℕ → List (ℝ × ℝ)) (top_n : ℕ) (sg_profile_factor : ℝ) : List Ranked :=
  let filtered := filter_candidates target_total candidates
  let evaluated := filtered.enum.map (fun ic =>
    evaluate_candidate target_total short_trouble_label long_trouble_label
      left_trouble_label right_trouble_label green_firmness_label strategy_label
      start_distance_yards start_surface skill_factor pin_lateral_offset green_width
      sg_profile_factor (zdraws ic.1) ic.2)
  (List.insertionSort rankGE evaluated).take top_n

/-- The fairway-miss probability computation of `par4_strategy`, including its
special case for `sigma_lat ≤ 0`. -/
noncomputable def par4_miss_prob (fairway_width sigma_lat : ℝ) : ℝ :=
  if sigma_lat ≤ 0 then 0.0
  else
    let thresh := fairway_width / 2
    min (max (2.0 * (1.0 - normal_cdf (thresh / sigma_lat))) 0.0) 1.0

/-- Well-formedness relation between consecutive anchors of an
expected-strokes table: strictly increasing distances, non-decreasing strokes. -/
def tableR (p q : ℝ × ℝ) : Prop := p.1 < q.1 ∧ p.2 ≤ q.2

/-- A well-formed anchor table. -/
def TableOK (t : List (ℝ × ℝ)) : Prop := List.Chain' tableR t

/-- Pointwise domination between anchors at the same distance. -/
def tableLE (p q : ℝ × ℝ) : Prop := p.1 = q.1 ∧ p.2 ≤ q.2

/-- The sort order actually claimed by the specification for the recommender:
strokes-gained descending, ties broken by smaller absolute distance error. -/
def specClaimOrder (a b : Ranked) : Prop :=
  b.sg < a.sg ∨ (a.sg = b.sg ∧ |a.diff| ≤ |b.diff|)

end GolfCaddy

namespace GolfCaddy

theorem last_pair_cons (p q : ℝ × ℝ) (rest : List (ℝ × ℝ)) :
    last_pair (q :: rest) p = last_pair rest q := rfl

theorem last_pair_bounds : ∀ (rest : List (ℝ × ℝ)) (p : ℝ × ℝ),
    List.Chain' tableR (p :: rest) →
    p.1 ≤ (last_pair rest p).1 ∧ p.2 ≤ (last_pair rest p).2
  | [], p, _ => ⟨le_rfl, le_rfl⟩
  | q :: rest, p, h => by
    rw [List.chain'_cons] at h
    have ih := last_pair_bounds rest q h.2
    rw [last_pair_cons]
    exact ⟨(le_of_lt h.1.1).trans ih.1, h.1.2.trans ih.2⟩

theorem lerp_seg_bounds (d0 s0 d1 s1 d : ℝ) (hd : d0 < d1) (hs : s0 ≤ s1)
    (h1 : d0 ≤ d) (h2 : d ≤ d1) :
    s0 ≤ lerp_seg d0 s0 d1 s1 d ∧ lerp_seg d0 s0 d1 s1 d ≤ s1 := by
  unfold lerp_seg
  rw [if_neg (ne_of_gt hd)]
  have hden : (0 : ℝ) < d1 - d0 := by linarith
  have ht0 : 0 ≤ (d - d0) / (d1 - d0) := div_nonneg (by linarith) (le_of_lt hden)
  have ht1 : (d - d0) / (d1 - d0) ≤ 1 := by
    rw [div_le_one hden]; linarith
  constructor
  · nlinarith [mul_nonneg ht0 (by linarith : (0 : ℝ) ≤ s1 - s0)]
  · nlinarith [mul_le_mul_of_nonneg_right ht1 (by linarith : (0 : ℝ) ≤ s1 - s0)]

theorem lerp_seg_mono (d0 s0 d1 s1 d d' : ℝ) (hd : d0 < d1) (hs : s0 ≤ s1)
    (h : d ≤ d') : lerp_seg d0 s0 d1 s1 d ≤ lerp_seg d0 s0 d1 s1 d' := by
  unfold lerp_seg
  rw [if_neg (ne_of_gt hd), if_neg (ne_of_gt hd)]
  have hden : (0 : ℝ) < d1 - d0 := by linarith
  have key : (d - d0) / (d1 - d0) ≤ (d' - d0) / (d1 - d0) :=
    (div_le_div_right hden).2 (by linarith)
  have := mul_le_mul_of_nonneg_right key (by linarith : (0 : ℝ) ≤ s1 - s0)
  linarith

theorem lerp_seg_le (d0 s0 s0' d1 s1 s1' d : ℝ) (hd : d0 < d1)
    (h0 : s0 ≤ s0') (h1 : s1 ≤ s1') (hl : d0 ≤ d) (hr : d ≤ d1) :
    lerp_seg d0 s0 d1 s1 d ≤ lerp_seg d0 s0' d1 s1' d := by
  unfold lerp_seg
  rw [if_neg (ne_of_gt hd), if_neg (ne_of_gt hd)]
  have hden : (0 : ℝ) < d1 - d0 := by linarith
  have ht0 : 0 ≤ (d - d0) / (d1 - d0) := div_nonneg (by linarith) (le_of_lt hden)
  have ht1 : (d - d0) / (d1 - d0) ≤ 1 := by rw [div_le_one hden]; linarith
  nlinarith [mul_le_mul_of_nonneg_left (sub_le_sub h1 h0) ht0,
    mul_le_mul_of_nonneg_right ht1 (sub_nonneg.2 h0)]

theorem interp_segments_pair (p q : ℝ × ℝ) (rest : List (ℝ × ℝ)) (d dflt : ℝ) :
    interp_segments (p :: q :: rest) d dflt =
      if p.1 ≤ d ∧ d ≤ q.1 then lerp_seg p.1 p.2 q.1 q.2 d
      else interp_segments (q :: rest) d dflt := rfl

theorem interp_segments_single (p : ℝ × ℝ) (d dflt : ℝ) :
    interp_segments [p] d dflt = dflt := rfl

theorem interp_segments_bounds : ∀ (rest : List (ℝ × ℝ)) (p : ℝ × ℝ) (d : ℝ),
    TableOK (p :: rest) → p.1 ≤ d → d ≤ (last_pair rest p).1 →
    p.2 ≤ interp_segments (p :: rest) d (last_pair rest p).2 ∧
      interp_segments (p :: rest) d (last_pair rest p).2 ≤ (last_pair rest p).2
  | [], p, d, _, _, _ => by
    rw [interp_segments_single]
    exact ⟨le_rfl, le_rfl⟩
  | q :: rest, p, d, hOK, hl, hr => by
    rw [TableOK, List.chain'_cons] at hOK
    rw [last_pair_cons] at hr ⊢
    have hlastq := last_pair_bounds rest q hOK.2
    rw [interp_segments_pair]
    by_cases hseg : p.1 ≤ d ∧ d ≤ q.1
    · rw [if_pos hseg]
      have hb := lerp_seg_bounds p.1 p.2 q.1 q.2 d hOK.1.1 hOK.1.2 hseg.1 hseg.2
      exact ⟨hb.1, hb.2.trans hlastq.2⟩
    · rw [if_neg hseg]
      have hq : q.1 < d := by
        rcases not_and_or.mp hseg with h | h
        · exact absurd hl h
        · exact lt_of_not_le h
      have ih := interp_segments_bounds rest q d hOK.2 (le_of_lt hq) hr
      exact ⟨hOK.1.2.trans ih.1, ih.2⟩

theorem interp_segments_mono : ∀ (rest : List (ℝ × ℝ)) (p : ℝ × ℝ) (d d' : ℝ),
    TableOK (p :: rest) → p.1 ≤ d → d ≤ d' → d' ≤ (last_pair rest p).1 →
    interp_segments (p :: rest) d (last_pair rest p).2 ≤
      interp_segments (p :: rest) d' (last_pair rest p).2
  | [], p, d, d', _, _, _, _ => by rw [interp_segments_single]; exact le_rfl
  | q :: rest, p, d, d', hOK, hl, hdd, hr => by
    rw [TableOK, List.chain'_cons] at hOK
    rw [last_pair_cons] at hr ⊢
    rw [interp_segments_pair, interp_segments_pair]
    by_cases hseg' : d' ≤ q.1
    · have hseg : d ≤ q.1 := hdd.trans hseg'
      rw [if_pos ⟨hl, hseg⟩, if_pos ⟨hl.trans hdd, hseg'⟩]
      exact lerp_seg_mono p.1 p.2 q.1 q.2 d d' hOK.1.1 hOK.1.2 hdd
    · have hq' : q.1 < d' := lt_of_not_le hseg'
      by_cases hseg : d ≤ q.1
      · rw [if_pos ⟨hl, hseg⟩, if_neg (fun hc => hseg' hc.2)]
        have hb := lerp_seg_bounds p.1 p.2 q.1 q.2 d hOK.1.1 hOK.1.2 hl hseg
        have hlow := interp_segments_bounds rest q d' hOK.2 (le_of_lt hq') hr
        exact hb.2.trans hlow.1
      · have hq : q.1 < d := lt_of_not_le hseg
        rw [if_neg (fun hc => hseg hc.2), if_neg (fun hc => hseg' hc.2)]
        exact interp_segments_mono rest q d d' hOK.2 (le_of_lt hq) hdd hr

theorem last_pair_rel : ∀ (rest1 rest2 : List (ℝ × ℝ)) (p1 p2 : ℝ × ℝ),
    List.Forall₂ tableLE rest1 rest2 → tableLE p1 p2 →
    tableLE (last_pair rest1 p1) (last_pair rest2 p2)
  | [], [], p1, p2, _, hp => hp
  | q1 :: rest1, q2 :: rest2, p1, p2, hf, _ => by
    rcases hf with _ | ⟨hq, hf'⟩
    rw [last_pair_cons, last_pair_cons]
    exact last_pair_rel rest1 rest2 q1 q2 hf' hq

theorem interp_segments_le : ∀ (rest1 rest2 : List (ℝ × ℝ)) (p1 p2 : ℝ × ℝ) (d : ℝ),
    TableOK (p1 :: rest1) → List.Forall₂ tableLE (p1 :: rest1) (p2 :: rest2) →
    interp_segments (p1 :: rest1) d (last_pair rest1 p1).2 ≤
      interp_segments (p2 :: rest2) d (last_pair rest2 p2).2
  | [], [], p1, p2, d, _, hf => by
    rw [interp_segments_single, interp_segments_single]
    rcases hf with _ | ⟨hp, _⟩
    exact hp.2
  | q1 :: rest1, q2 :: rest2, p1, p2, d, hOK, hf => by
    rcases hf with _ | ⟨hp, hf'⟩
    have hq : tableLE q1 q2 := by rcases hf' with _ | ⟨hq, _⟩; exact hq
    have hf'' : List.Forall₂ tableLE rest1 rest2 := by
      rcases hf' with _ | ⟨_, h⟩; exact h
    rw [TableOK, List.chain'_cons] at hOK
    rw [last_pair_cons, last_pair_cons, interp_segments_pair, interp_segments_pair,
      ← hp.1, ← hq.1]
    by_cases hseg : p1.1 ≤ d ∧ d ≤ q1.1
    · rw [if_pos hseg, if_pos hseg]
      exact lerp_seg_le p1.1 p1.2 p2.2 q1.1 q1.2 q2.2 d hOK.1.1 hp.2 hq.2 hseg.1 hseg.2
    · rw [if_neg hseg, if_neg hseg]
      exact interp_segments_le rest1 rest2 q1 q2 d hOK.2
        (List.Forall₂.cons hq hf'')
  | [], q2 :: rest2, p1, p2, d, _, hf => by
    rcases hf with _ | ⟨_, hf'⟩; cases hf'
  | q1 :: rest1, [], p1, p2, d, _, hf => by
    rcases hf with _ | ⟨_, hf'⟩; cases hf'

theorem table_interp_cons (p : ℝ × ℝ) (rest : List (ℝ × ℝ)) (d : ℝ) :
    table_interp (p :: rest) d =
      if d ≤ p.1 then p.2
      else if (last_pair rest p).1 ≤ d then (last_pair rest p).2
      else interp_segments (p :: rest) d (last_pair rest p).2 := rfl

theorem table_interp_mono : ∀ (t : List (ℝ × ℝ)) (d d' : ℝ), TableOK t → d ≤ d' →
    table_interp t d ≤ table_interp t d'
  | [], d, d', _, _ => le_rfl
  | p :: rest, d, d', hOK, hdd => by
    have hlast := last_pair_bounds rest p hOK
    rw [table_interp_cons, table_interp_cons]
    by_cases h1 : d ≤ p.1
    · rw [if_pos h1]
      by_cases h1' : d' ≤ p.1
      · rw [if_pos h1']
      · rw [if_neg h1']
        by_cases h2' : (last_pair rest p).1 ≤ d'
        · rw [if_pos h2']; exact hlast.2
        · rw [if_neg h2']
          exact (interp_segments_bounds rest p d' hOK (le_of_not_le h1')
            (le_of_lt (lt_of_not_le h2'))).1
    · rw [if_neg h1]
      have h1' : ¬ d' ≤ p.1 := fun hc => h1 (hdd.trans hc)
      rw [if_neg h1']
      by_cases h2 : (last_pair rest p).1 ≤ d
      · rw [if_pos h2, if_pos (h2.trans hdd)]
      · rw [if_neg h2]
        by_cases h2' : (last_pair rest p).1 ≤ d'
        · rw [if_pos h2']
          exact (interp_segments_bounds rest p d hOK (le_of_not_le h1)
            (le_of_lt (lt_of_not_le h2))).2
        · rw [if_neg h2']
          exact interp_segments_mono rest p d d' hOK (le_of_not_le h1) hdd
            (le_of_lt (lt_of_not_le h2'))

theorem table_interp_le : ∀ (t1 t2 : List (ℝ × ℝ)) (d : ℝ), TableOK t1 →
    List.Forall₂ tableLE t1 t2 → table_interp t1 d ≤ table_interp t2 d
  | [], [], d, _, _ => le_rfl
  | p1 :: rest1, p2 :: rest2, d, hOK, hf => by
    rcases hf with _ | ⟨hp, hf'⟩
    have hlast := last_pair_rel rest1 rest2 p1 p2 hf' hp
    rw [table_interp_cons, table_interp_cons, ← hp.1, ← hlast.1]
    by_cases h1 : d ≤ p1.1
    · rw [if_pos h1, if_pos h1]; exact hp.2
    · rw [if_neg h1, if_neg h1]
      by_cases h2 : (last_pair rest1 p1).1 ≤ d
      · rw [if_pos h2, if_pos h2]; exact hlast.2
      · rw [if_neg h2, if_neg h2]
        exact interp_segments_le rest1 rest2 p1 p2 d hOK (List.Forall₂.cons hp hf')

theorem table_interp_ge_head (p : ℝ × ℝ) (rest : List (ℝ × ℝ)) (d : ℝ)
    (hOK : TableOK (p :: rest)) : p.2 ≤ table_interp (p :: rest) d := by
  have hlast := last_pair_bounds rest p hOK
  rw [table_interp_cons]
  by_cases h1 : d ≤ p.1
  · rw [if_pos h1]
  · rw [if_neg h1]
    by_cases h2 : (last_pair rest p).1 ≤ d
    · rw [if_pos h2]; exact hlast.2
    · rw [if_neg h2]
      exact (interp_segments_bounds rest p d hOK (le_of_not_le h1)
        (le_of_lt (lt_of_not_le h2))).1

theorem fairwayTable_ok : TableOK fairwayTable := by
  simp only [TableOK, fairwayTable, List.chain'_cons, List.chain'_singleton, tableR]
  norm_num

theorem roughTable_ok : TableOK roughTable := by
  simp only [TableOK, roughTable, List.chain'_cons, List.chain'_singleton, tableR]
  norm_num

theorem sandTable_ok : TableOK sandTable := by
  simp only [TableOK, sandTable, List.chain'_cons, List.chain'_singleton, tableR]
  norm_num

theorem recoveryTable_ok : TableOK recoveryTable := by
  simp only [TableOK, recoveryTable, List.chain'_cons, List.chain'_singleton, tableR]
  norm_num

theorem greenTable_ok : TableOK greenTable := by
  simp only [TableOK, greenTable, List.chain'_cons, List.chain'_singleton, tableR]
  norm_num

theorem expected_strokes_table_ok (lie : String) : TableOK (expected_strokes_table lie) := by
  unfold expected_strokes_table
  split_ifs
  · exact fairwayTable_ok
  · exact roughTable_ok
  · exact sandTable_ok
  · exact recoveryTable_ok
  · exact greenTable_ok
  · exact fairwayTable_ok

theorem fairway_le_rough : List.Forall₂ tableLE fairwayTable roughTable := by
  simp only [fairwayTable, roughTable, List.forall₂_cons, tableLE, List.Forall₂.nil]
  norm_num

theorem rough_le_sand : List.Forall₂ tableLE roughTable sandTable := by
  simp only [roughTable, sandTable, List.forall₂_cons, tableLE, List.Forall₂.nil]
  norm_num

theorem interp_expected_strokes_def (d pf : ℝ) (lie : String) :
    interp_expected_strokes d lie pf =
      table_interp (expected_strokes_table (pyLower (if lie = "" then "fairway" else lie)))
        (max 0.0 d) * max 0.8 pf := rfl

theorem max_profile_pos (pf : ℝ) : 0 < max 0.8 pf :=
  lt_of_lt_of_le (by norm_num) (le_max_left _ _)

theorem expected_strokes_table_interp_pos (lie : String) (d : ℝ) :
    0 < table_interp (expected_strokes_table lie) d := by
  unfold expected_strokes_table
  split_ifs
  · exact lt_of_lt_of_le (by norm_num) (table_interp_ge_head _ _ d fairwayTable_ok)
  · exact lt_of_lt_of_le (by norm_num) (table_interp_ge_head _ _ d roughTable_ok)
  · exact lt_of_lt_of_le (by norm_num) (table_interp_ge_head _ _ d sandTable_ok)
  · exact lt_of_lt_of_le (by norm_num) (table_interp_ge_head _ _ d recoveryTable_ok)
  · exact lt_of_lt_of_le (by norm_num) (table_interp_ge_head _ _ d greenTable_ok)
  · exact lt_of_lt_of_le (by norm_num) (table_interp_ge_head _ _ d fairwayTable_ok)

/-- C2 (amended): for every fixed surface string the expected-strokes
function is monotonically non-decreasing in distance, and for every fixed
distance `expected_strokes(fairway) ≤ expected_strokes(rough) ≤
expected_strokes(sand)`.  (The full severity chain of the claim fails: the
green table exceeds the fairway table at short range, see the
counterexample.) -/
theorem C2_expected_strokes_monotonicity (lie : String) (pf d d' : ℝ) (h : d ≤ d') :
    interp_expected_strokes d lie pf ≤ interp_expected_strokes d' lie pf ∧
    interp_expected_strokes d "fairway" pf ≤ interp_expected_strokes d "rough" pf ∧
    interp_expected_strokes d "rough" pf ≤ interp_expected_strokes d "sand" pf := by
  refine ⟨?_, ?_, ?_⟩
  · rw [interp_expected_strokes_def, interp_expected_strokes_def]
    exact mul_le_mul_of_nonneg_right
      (table_interp_mono _ _ _ (expected_strokes_table_ok _) (max_le_max le_rfl h))
      (le_of_lt (max_profile_pos pf))
  · rw [interp_expected_strokes_def, interp_expected_strokes_def,
      show expected_strokes_table (pyLower (if ("fairway" : String) = "" then "fairway"
        else "fairway")) = fairwayTable from rfl,
      show expected_strokes_table (pyLower (if ("rough" : String) = "" then "fairway"
        else "rough")) = roughTable from rfl]
    exact mul_le_mul_of_nonneg_right
      (table_interp_le _ _ _ fairwayTable_ok fairway_le_rough)
      (le_of_lt (max_profile_pos pf))
  · rw [interp_expected_strokes_def, interp_expected_strokes_def,
      show expected_strokes_table (pyLower (if ("rough" : String) = "" then "fairway"
        else "rough")) = roughTable from rfl,
      show expected_strokes_table (pyLower (if ("sand" : String) = "" then "fairway"
        else "sand")) = sandTable from rfl]
    exact mul_le_mul_of_nonneg_right
      (table_interp_le _ _ _ roughTable_ok rough_le_sand)
      (le_of_lt (max_profile_pos pf))

/-- C2 witness: the monotonicity theorem instantiated at distances 3 ≤ 8 on
the fairway table. -/
theorem C2_expected_strokes_monotonicity_witness :
    (3 : ℝ) ≤ 8 ∧
    (interp_expected_strokes 3 "fairway" 1 ≤ interp_expected_strokes 8 "fairway" 1 ∧
     interp_expected_strokes 3 "fairway" 1 ≤ interp_expected_strokes 3 "rough" 1 ∧
     interp_expected_strokes 3 "rough" 1 ≤ interp_expected_strokes 3 "sand" 1) :=
  ⟨by norm_num, C2_expected_strokes_monotonicity "fairway" 1 3 8 (by norm_num)⟩

/-- C2 counterexample: the claimed severity ordering `green ≤ fairway` fails
at distance 3: the green table gives 1.20 strokes while the fairway table
gives 1.07. -/
theorem C2_counterexample :
    interp_expected_strokes 3 "fairway" 1 < interp_expected_strokes 3 "green" 1 := by
  have h1 : interp_expected_strokes 3 "fairway" 1 = 1.07 := by
    rw [interp_expected_strokes_def,
      show expected_strokes_table (pyLower (if ("fairway" : String) = "" then "fairway"
        else "fairway")) = fairwayTable from rfl]
    norm_num [table_interp_cons, last_pair, interp_segments_pair, interp_segments_single,
      lerp_seg, fairwayTable, max_def, min_def]
  have h2 : interp_expected_strokes 3 "green" 1 = 1.20 := by
    rw [interp_expected_strokes_def,
      show expected_strokes_table (pyLower (if ("green" : String) = "" then "fairway"
        else "green")) = greenTable from rfl]
    norm_num [table_interp_cons, last_pair, interp_segments_pair, interp_segments_single,
      lerp_seg, greenTable, max_def, min_def]
  rw [h1, h2]; norm_num

/-- C4 (amended): the handicap factor scales the expected-strokes value
linearly only for factors ≥ 0.8 (the source clamps the factor from below at
0.8); the strict chain at factors 0.8 < 1.0 < 1.3 holds. -/
theorem C4_handicap_scaling (d : ℝ) (lie : String) (pf : ℝ) (hpf : 0.8 ≤ pf) :
    interp_expected_strokes d lie pf = pf * interp_expected_strokes d lie 1 ∧
    interp_expected_strokes d lie 0.8 < interp_expected_strokes d lie 1 ∧
    interp_expected_strokes d lie 1 < interp_expected_strokes d lie 1.3 := by
  have hpos := expected_strokes_table_interp_pos
    (pyLower (if lie = "" then "fairway" else lie)) (max 0.0 d)
  refine ⟨?_, ?_, ?_⟩
  · rw [interp_expected_strokes_def, interp_expected_strokes_def,
      max_eq_right hpf, max_eq_right (by norm_num : (0.8 : ℝ) ≤ 1)]
    ring
  · rw [interp_expected_strokes_def, interp_expected_strokes_def,
      max_eq_right (le_refl (0.8 : ℝ)), max_eq_right (by norm_num : (0.8 : ℝ) ≤ 1)]
    exact mul_lt_mul_of_pos_left (by norm_num) hpos
  · rw [interp_expected_strokes_def, interp_expected_strokes_def,
      max_eq_right (by norm_num : (0.8 : ℝ) ≤ 1),
      max_eq_right (by norm_num : (0.8 : ℝ) ≤ 1.3)]
    exact mul_lt_mul_of_pos_left (by norm_num) hpos

/-- C4 witness: the scaling theorem instantiated at distance 5, rough lie,
factor 2. -/
theorem C4_handicap_scaling_witness :
    (0.8 : ℝ) ≤ 2 ∧
    (interp_expected_strokes 5 "rough" 2 = 2 * interp_expected_strokes 5 "rough" 1 ∧
     interp_expected_strokes 5 "rough" 0.8 < interp_expected_strokes 5 "rough" 1 ∧
     interp_expected_strokes 5 "rough" 1 < interp_expected_strokes 5 "rough" 1.3) :=
  ⟨by norm_num, C4_handicap_scaling 5 "rough" 2 (by norm_num)⟩

/-- C4 counterexample: at handicap factor 0.5 the result is not
`0.5 × (value at factor 1)`: the factor is clamped to 0.8, so the value is
strictly larger. -/
theorem C4_counterexample :
    (1 / 2) * interp_expected_strokes 0 "fairway" 1 <
      interp_expected_strokes 0 "fairway" (1 / 2) := by
  have h1 : interp_expected_strokes 0 "fairway" 1 = 1 := by
    rw [interp_expected_strokes_def,
      show expected_strokes_table (pyLower (if ("fairway" : String) = "" then "fairway"
        else "fairway")) = fairwayTable from rfl]
    norm_num [table_interp_cons, last_pair, interp_segments_pair, interp_segments_single,
      lerp_seg, fairwayTable, max_def, min_def]
  have h2 : interp_expected_strokes 0 "fairway" (1 / 2) = 0.8 := by
    rw [interp_expected_strokes_def,
      show expected_strokes_table (pyLower (if ("fairway" : String) = "" then "fairway"
        else "fairway")) = fairwayTable from rfl]
    norm_num [table_interp_cons, last_pair, interp_segments_pair, interp_segments_single,
      lerp_seg, fairwayTable, max_def, min_def]
  rw [h1, h2]; norm_num

/-- C5 (amended): for every distance and every wind-strength label mapping to
a positive speed (light/medium/heavy), a headwind strictly increases and a
tailwind strictly decreases the plays-like distance relative to no wind.
(For strength "none" the mapped speed is 0 and all three coincide, see the
counterexample.) -/
theorem C5_wind_monotonicity (d : ℝ) (s : String)
    (h : 0 < WIND_STRENGTH_MAP (pyLower (pyStrip s))) :
    adjust_for_wind d "none" s < adjust_for_wind d "into" s ∧
    adjust_for_wind d "down" s < adjust_for_wind d "none" s := by
  have hinto : adjust_for_wind d "into" s =
      d + WIND_STRENGTH_MAP (pyLower (pyStrip s)) * 0.9 * max 0.5 (min (d / 150) 1.2) := rfl
  have hnone : adjust_for_wind d "none" s = d := rfl
  have hdown : adjust_for_wind d "down" s =
      d - WIND_STRENGTH_MAP (pyLower (pyStrip s)) * 0.4 * max 0.5 (min (d / 150) 1.2) := rfl
  have hscale : (0 : ℝ) < max 0.5 (min (d / 150) 1.2) :=
    lt_of_lt_of_le (by norm_num) (le_max_left _ _)
  constructor
  · rw [hinto, hnone]
    nlinarith [mul_pos (mul_pos h (by norm_num : (0 : ℝ) < 0.9)) hscale]
  · rw [hdown, hnone]
    nlinarith [mul_pos (mul_pos h (by norm_num : (0 : ℝ) < 0.4)) hscale]

/-- C5 witness: the wind monotonicity theorem instantiated at 150 yards and
strength "medium" (10 mph). -/
theorem C5_wind_monotonicity_witness :
    0 < WIND_STRENGTH_MAP (pyLower (pyStrip "medium")) ∧
    (adjust_for_wind 150 "none" "medium" < adjust_for_wind 150 "into" "medium" ∧
     adjust_for_wind 150 "down" "medium" < adjust_for_wind 150 "none" "medium") :=
  ⟨by rw [show WIND_STRENGTH_MAP (pyLower (pyStrip "medium")) = 10 from rfl]; norm_num,
   C5_wind_monotonicity 150 "medium" (by
     rw [show WIND_STRENGTH_MAP (pyLower (pyStrip "medium")) = 10 from rfl]; norm_num)⟩

/-- C5 counterexample: with wind strength "none" (0 mph) a headwind does not
strictly increase the plays-like distance: it equals the no-wind value. -/
theorem C5_counterexample :
    adjust_for_wind 150 "into" "none" = adjust_for_wind 150 "none" "none" := by
  have h1 : adjust_for_wind 150 "into" "none" =
      150 + WIND_STRENGTH_MAP (pyLower (pyStrip "none")) * 0.9 *
        max 0.5 (min ((150 : ℝ) / 150) 1.2) := rfl
  rw [h1, show WIND_STRENGTH_MAP (pyLower (pyStrip "none")) = 0 from rfl,
    show adjust_for_wind 150 "none" "none" = (150 : ℝ) from rfl]
  ring

theorem get_dispersion_sigma_ge (cat : String) : 5 ≤ get_dispersion_sigma cat := by
  simp only [get_dispersion_sigma]
  split_ifs <;> norm_num

theorem get_lateral_sigma_ge (cat : String) : 3.5 ≤ get_lateral_sigma cat := by
  simp only [get_lateral_sigma]
  split_ifs with h1 h2 h3
  · rw [h1, show get_dispersion_sigma "scoring_wedge" = 5.0 from rfl]; norm_num
  · rw [h2, show get_dispersion_sigma "short_iron" = 7.0 from rfl]; norm_num
  · rw [h3, show get_dispersion_sigma "mid_iron" = 8.0 from rfl]; norm_num
  · nlinarith [get_dispersion_sigma_ge (pyLower cat)]

/-- C3 (amended): the effective dispersion used when simulating a shot is
`max(0.1, base sigma × skill_factor)`: there is no lie-dispersion factor.
For every skill factor ≥ 1/35 the floor is inactive and the effective sigma
equals base × skill exactly (equivalently, a constant lie factor of 1), for
both depth and lateral dispersion. -/
theorem C3_effective_sigma (cat : String) (skill : ℝ) (h : 1 / 35 ≤ skill) :
    effective_sigma (get_dispersion_sigma cat) skill = get_dispersion_sigma cat * skill ∧
    effective_sigma (get_lateral_sigma cat) skill = get_lateral_sigma cat * skill := by
  constructor
  · unfold effective_sigma
    apply max_eq_right
    nlinarith [get_dispersion_sigma_ge cat,
      mul_le_mul (get_dispersion_sigma_ge cat) h (by norm_num)
        (le_trans (by norm_num) (get_dispersion_sigma_ge cat))]
  · unfold effective_sigma
    apply max_eq_right
    nlinarith [get_lateral_sigma_ge cat,
      mul_le_mul (get_lateral_sigma_ge cat) h (by norm_num)
        (le_trans (by norm_num) (get_lateral_sigma_ge cat))]

/-- C3 witness: the effective-sigma theorem instantiated for the mid-iron
category at skill factor 1. -/
theorem C3_effective_sigma_witness :
    (1 / 35 : ℝ) ≤ 1 ∧
    (effective_sigma (get_dispersion_sigma "mid_iron") 1 =
        get_dispersion_sigma "mid_iron" * 1 ∧
     effective_sigma (get_lateral_sigma "mid_iron") 1 =
        get_lateral_sigma "mid_iron" * 1) :=
  ⟨by norm_num, C3_effective_sigma "mid_iron" 1 (by norm_num)⟩

/-- C3 counterexample: at skill factor 0 the effective sigma is 0.1, while
any product `base × skill × lie_factor` would be `0 × lie_factor = 0`; so the
claimed factorization does not describe the code. -/
theorem C3_counterexample :
    effective_sigma (get_dispersion_sigma "long") 0 = 0.1 ∧
    get_dispersion_sigma "long" * 0 = 0 := by
  constructor
  · unfold effective_sigma
    rw [mul_zero]
    norm_num [max_def]
  · rw [mul_zero]

theorem strategy_penalty_multiplier_pos (s : String) :
    0 < strategy_penalty_multiplier s := by
  simp only [strategy_penalty_multiplier]
  split_ifs <;> norm_num

set_option maxHeartbeats 2000000 in
theorem draw_sample_long_mono (mu sd sl : ℝ) (lie : String)
    (pf ss ls lft rgt mult thr : ℝ) (hmult : 0 < mult) (hls : 0 < ls) (z : ℝ × ℝ) :
    draw_sample mu sd sl lie pf ss 0 lft rgt mult thr z ≤
      draw_sample mu sd sl lie pf ss ls lft rgt mult thr z ∧
    (5 < mu + sd * z.1 →
      draw_sample mu sd sl lie pf ss 0 lft rgt mult thr z <
        draw_sample mu sd sl lie pf ss ls lft rgt mult thr z) := by
  have hlm : 0 < ls * mult := mul_pos hls hmult
  simp only [draw_sample, gt_iff_lt, lt_self_iff_false, false_and, if_false]
  constructor
  · split_ifs <;> linarith
  · intro hde
    split_ifs with h1 h2 h3 h4 <;> first
      | linarith
      | (rename_i hcon;
         exact absurd (And.intro hls (by linarith : (5.0 : ℝ) < mu + sd * z.1)) hcon)

/-- C6: two otherwise-identical simulations that differ only in the long
trouble label (Severe vs None) give a strictly lower strokes-gained value
whenever at least one draw's depth error exceeds the +5-yard long-miss
threshold. -/
theorem C6_long_trouble_sensitivity (c : Candidate) (target : ℝ)
    (shortT leftT rightT strategy : String) (sd : ℝ) (ss : String)
    (skill : ℝ) (gf : String) (gw po pf : ℝ) (zs : List (ℝ × ℝ))
    (h : ∃ z ∈ zs,
      5 < (c.total - target) + effective_sigma (get_dispersion_sigma c.category) skill * z.1) :
    (simulate_candidate_sg c target shortT "Severe" leftT rightT strategy sd ss skill
        gf gw po zs pf).2 <
      (simulate_candidate_sg c target shortT "None" leftT rightT strategy sd ss skill
        gf gw po zs pf).2 := by
  obtain ⟨z0, hz0, hgt⟩ := h
  have hmult := strategy_penalty_multiplier_pos strategy
  have hsev : (0 : ℝ) < trouble_severity "Severe" := by
    rw [show trouble_severity "Severe" = 1.0 from rfl]; norm_num
  have hnone : trouble_severity "None" = 0 := by
    rw [show trouble_severity "None" = 0.0 from rfl]; norm_num
  simp only [simulate_candidate_sg, hnone]
  have hn : (0 : ℝ) < (zs.length : ℝ) := by
    have : zs ≠ [] := List.ne_nil_of_mem hz0
    exact_mod_cast List.length_pos.mpr this
  apply sub_lt_sub_left
  rw [div_lt_div_iff_of_pos_right hn]
  apply List.sum_lt_sum
  · intro z hz
    exact (draw_sample_long_mono _ _ _ _ _ _ _ _ _ _ _ hmult hsev z).1
  · exact ⟨z0, hz0, (draw_sample_long_mono _ _ _ _ _ _ _ _ _ _ _ hmult hsev z0).2 hgt⟩

/-- The concrete candidate used by the C6 witness. -/
def c6cand : Candidate := ⟨"3W", "Full", "Stock", "long", 105, 110⟩

/-- C6 witness: the sensitivity theorem instantiated for a long candidate 10
yards past a 100-yard target with a single draw one sigma long. -/
theorem C6_long_trouble_sensitivity_witness :
    (∃ z ∈ [((1 : ℝ), (0 : ℝ))],
      5 < (c6cand.total - 100) +
        effective_sigma (get_dispersion_sigma c6cand.category) 1 * z.1) ∧
    (simulate_candidate_sg c6cand 100 "None" "Severe"
        "None" "None" "Balanced" 100 "fairway" 1 "Medium" 0 0 [(1, 0)] 1).2 <
      (simulate_candidate_sg c6cand 100 "None" "None"
        "None" "None" "Balanced" 100 "fairway" 1 "Medium" 0 0 [(1, 0)] 1).2 := by
  have hmem : (5 : ℝ) < (c6cand.total - 100) +
      effective_sigma (get_dispersion_sigma c6cand.category) 1 * ((1 : ℝ), (0 : ℝ)).1 := by
    rw [show get_dispersion_sigma c6cand.category = 10.0 from rfl,
      show c6cand.total = (110 : ℝ) from rfl]
    unfold effective_sigma
    norm_num [max_def]
  refine ⟨⟨(1, 0), List.mem_singleton.mpr rfl, hmem⟩, ?_⟩
  exact C6_long_trouble_sensitivity c6cand 100
    "None" "None" "None" "Balanced" 100 "fairway" 1 "Medium" 0 0 1 [(1, 0)]
    ⟨(1, 0), List.mem_singleton.mpr rfl, hmem⟩

theorem filter_candidates_mem (t : ℝ) : ∀ (cs : List Candidate) (c : Candidate),
    c ∈ filter_candidates t cs ↔ c ∈ cs ∧ 0.5 * t ≤ c.total ∧ c.total ≤ 1.5 * t
  | [], c => by simp [filter_candidates]
  | a :: cs, c => by
    have ih := filter_candidates_mem t cs c
    simp only [filter_candidates]
    split_ifs with h1 h2
    · rw [ih, List.mem_cons]
      constructor
      · rintro ⟨hcs, hP⟩; exact ⟨Or.inr hcs, hP⟩
      · rintro ⟨hor, hP⟩
        rcases hor with rfl | hcs
        · exact absurd hP.1 (by linarith)
        · exact ⟨hcs, hP⟩
    · rw [ih, List.mem_cons]
      constructor
      · rintro ⟨hcs, hP⟩; exact ⟨Or.inr hcs, hP⟩
      · rintro ⟨hor, hP⟩
        rcases hor with rfl | hcs
        · exact absurd hP.2 (by linarith)
        · exact ⟨hcs, hP⟩
    · rw [List.mem_cons, List.mem_cons, ih]
      constructor
      · rintro (rfl | ⟨hcs, hP⟩)
        · exact ⟨Or.inl rfl, le_of_not_lt h1, le_of_not_lt h2⟩
        · exact ⟨Or.inr hcs, hP⟩
      · rintro ⟨hor, hP⟩
        rcases hor with rfl | hcs
        · exact Or.inl rfl
        · exact Or.inr ⟨hcs, hP⟩

theorem filter_candidates_eq_nil (t : ℝ) : ∀ (cs : List Candidate),
    (∀ c ∈ cs, ¬ (0.5 * t ≤ c.total ∧ c.total ≤ 1.5 * t)) →
    filter_candidates t cs = []
  | [], _ => rfl
  | a :: cs, h => by
    have ha := h a (List.mem_cons_self a cs)
    have hrest := filter_candidates_eq_nil t cs (fun c hc => h c (List.mem_cons_of_mem a hc))
    simp only [filter_candidates]
    split_ifs with h1 h2
    · exact hrest
    · exact hrest
    · exact absurd ⟨le_of_not_lt h1, le_of_not_lt h2⟩ ha

/-- C7: the recommender evaluates exactly the candidates whose total distance
lies in the window `0.5×target ≤ total ≤ 1.5×target`, and when no candidate
survives the filter it returns the empty list (a normal value, no
exception). -/
theorem C7_filter_window_and_empty (target_total : ℝ) (candidates : List Candidate)
    (shortT longT leftT rightT gfirm strategy : String) (sd : ℝ) (ssurf : String)
    (fy bys skill po gw : ℝ) (zdraws : ℕ → List (ℝ × ℝ)) (top_n : ℕ) (pf : ℝ) :
    (∀ c, c ∈ filter_candidates target_total candidates ↔
      c ∈ candidates ∧ 0.5 * target_total ≤ c.total ∧ c.total ≤ 1.5 * target_total) ∧
    ((∀ c ∈ candidates, ¬ (0.5 * target_total ≤ c.total ∧ c.total ≤ 1.5 * target_total)) →
      recommend_shots_with_sg target_total candidates shortT longT leftT rightT gfirm
        strategy sd ssurf fy bys skill po gw zdraws top_n pf = []) := by
  constructor
  · exact fun c => filter_candidates_mem target_total candidates c
  · intro h
    have hnil := filter_candidates_eq_nil target_total candidates h
    simp only [recommend_shots_with_sg, hnil, List.enum_nil, List.map_nil]
    rw [show List.insertionSort rankGE ([] : List Ranked) = [] from rfl, List.take_nil]

/-- C7 witness: with a single 10-yard candidate and a 100-yard target the
filter removes everything and the recommender returns the empty list. -/
theorem C7_filter_window_and_empty_witness :
    (⟨"LW", "1/4", "Low", "scoring_wedge", 10, 10⟩ ∈
        filter_candidates 100 [⟨"LW", "1/4", "Low", "scoring_wedge", 10, 10⟩] ↔
      (⟨"LW", "1/4", "Low", "scoring_wedge", 10, 10⟩ : Candidate) ∈
          [(⟨"LW", "1/4", "Low", "scoring_wedge", 10, 10⟩ : Candidate)] ∧
        0.5 * 100 ≤ (10 : ℝ) ∧ (10 : ℝ) ≤ 1.5 * 100) ∧
    recommend_shots_with_sg 100 [⟨"LW", "1/4", "Low", "scoring_wedge", 10, 10⟩]
      "None" "None" "None" "None" "Medium" "Balanced" 100 "fairway" 0 0 1 0 0
      (fun _ => [(0, 0)]) 10 1 = [] := by
  have h := C7_filter_window_and_empty 100
    [⟨"LW", "1/4", "Low", "scoring_wedge", 10, 10⟩] "None" "None" "None" "None"
    "Medium" "Balanced" 100 "fairway" 0 0 1 0 0 (fun _ => [(0, 0)]) 10 1
  refine ⟨h.1 _, h.2 ?_⟩
  intro c hc
  rw [List.mem_singleton] at hc
  subst hc
  intro hcon
  norm_num at hcon

/-- C9: the par-4 fairway-miss computation special-cases `sigma ≤ 0`
(returning miss probability 0, i.e. all mass at the mean), and the effective
sigmas of the recommendation path are always strictly positive, so no
division by a non-positive sigma occurs. -/
theorem C9_sigma_guard :
    (∀ w sigma_lat : ℝ, sigma_lat ≤ 0 → par4_miss_prob w sigma_lat = 0) ∧
    (∀ (cat : String) (skill : ℝ),
      0 < effective_sigma (get_dispersion_sigma cat) skill ∧
      0 < effective_sigma (get_lateral_sigma cat) skill) := by
  constructor
  · intro w sl hsl
    unfold par4_miss_prob
    rw [if_pos hsl]
    norm_num
  · intro cat skill
    exact ⟨lt_of_lt_of_le (by norm_num) (le_max_left _ _),
      lt_of_lt_of_le (by norm_num) (le_max_left _ _)⟩

/-- C9 witness: the guard theorem instantiated at sigma 0 (medium fairway)
and for the long category at skill factor 0. -/
theorem C9_sigma_guard_witness :
    par4_miss_prob 35 0 = 0 ∧
    0 < effective_sigma (get_dispersion_sigma "long") 0 :=
  ⟨C9_sigma_guard.1 35 0 (le_refl 0), (C9_sigma_guard.2 "long" 0).1⟩

/-- C1 (amended): the list returned by `recommend_shots_with_sg` is sorted
lexicographically by (strokes-gained, legacy score) descending — i.e. by
strokes-gained descending with ties broken by the larger legacy score
`−|diff| − 0.2·sigma(category)`, which agrees with "smaller |diff|" only
within one dispersion category — and its length is at most `top_n`. -/
theorem C1_ranking_order (target_total : ℝ) (candidates : List Candidate)
    (shortT longT leftT rightT gfirm strategy : String) (sd : ℝ) (ssurf : String)
    (fy bys skill po gw : ℝ) (zdraws : ℕ → List (ℝ × ℝ)) (top_n : ℕ) (pf : ℝ) :
    List.Sorted rankGE (recommend_shots_with_sg target_total candidates shortT longT
      leftT rightT gfirm strategy sd ssurf fy bys skill po gw zdraws top_n pf) ∧
    (recommend_shots_with_sg target_total candidates shortT longT leftT rightT gfirm
      strategy sd ssurf fy bys skill po gw zdraws top_n pf).length ≤ top_n := by
  simp only [recommend_shots_with_sg]
  constructor
  · exact List.Pairwise.sublist (List.take_sublist _ _)
      (List.sorted_insertionSort rankGE _)
  · rw [List.length_take]
    exact min_le_left _ _

theorem side_threshold_zero : side_threshold 0 = 12.0 := by
  unfold side_threshold
  rw [if_neg (by norm_num : ¬ ((0 : ℝ) > 0))]

theorem effective_sigma_wedge : effective_sigma (get_dispersion_sigma "scoring_wedge") 1 = 5 := by
  rw [show get_dispersion_sigma "scoring_wedge" = 5.0 from rfl]
  unfold effective_sigma
  norm_num [max_def]

theorem effective_sigma_wedge_lat :
    effective_sigma (get_lateral_sigma "scoring_wedge") 1 = 3.5 := by
  rw [show get_lateral_sigma "scoring_wedge" = 5.0 * 0.7 from rfl]
  unfold effective_sigma
  norm_num [max_def]

theorem effective_sigma_long : effective_sigma (get_dispersion_sigma "long") 1 = 10 := by
  rw [show get_dispersion_sigma "long" = 10.0 from rfl]
  unfold effective_sigma
  norm_num [max_def]

theorem effective_sigma_long_lat : effective_sigma (get_lateral_sigma "long") 1 = 10 := by
  rw [show get_lateral_sigma "long" = 10.0 * 1.0 from rfl]
  unfold effective_sigma
  norm_num [max_def]

theorem interp_eval_fairway_20 : interp_expected_strokes 20 "fairway" 1 = 1.65 := by
  rw [interp_expected_strokes_def,
    show expected_strokes_table (pyLower (if ("fairway" : String) = "" then "fairway"
      else "fairway")) = fairwayTable from rfl]
  norm_num [table_interp_cons, last_pair, interp_segments_pair, interp_segments_single,
    lerp_seg, fairwayTable, max_def, min_def]

theorem interp_eval_fairway_100 : interp_expected_strokes 100 "fairway" 1 = 2.375 := by
  rw [interp_expected_strokes_def,
    show expected_strokes_table (pyLower (if ("fairway" : String) = "" then "fairway"
      else "fairway")) = fairwayTable from rfl]
  norm_num [table_interp_cons, last_pair, interp_segments_pair, interp_segments_single,
    lerp_seg, fairwayTable, max_def, min_def]

theorem draw_sample_eval_A :
    draw_sample (105.5 - 100) 5 3.5 "fairway" 1 0.0 0.0 0.0 0.0 1.0 12.0
      ((2.9 : ℝ), (0 : ℝ)) = 2.65 := by
  simp only [draw_sample]
  have hde : (105.5 : ℝ) - 100 + 5 * (2.9 : ℝ) = 20 := by norm_num
  have hle : (0 : ℝ) + 3.5 * (0 : ℝ) = 0 := by norm_num
  rw [hde, hle]
  rw [show Real.sqrt ((20 : ℝ) ^ 2 + (0 : ℝ) ^ 2) = 20 from by
    rw [show ((20 : ℝ) ^ 2 + (0 : ℝ) ^ 2) = 20 ^ 2 by norm_num]
    exact Real.sqrt_sq (by norm_num)]
  rw [if_neg (by norm_num : ¬ ((20 : ℝ) ≤ 5.0))]
  rw [if_neg (by norm_num : ¬ ((0.0 : ℝ) > 0 ∧ (20 : ℝ) < -5.0)),
    if_neg (by norm_num : ¬ ((0.0 : ℝ) > 0 ∧ (20 : ℝ) > 5.0)),
    if_neg (by norm_num : ¬ ((0.0 : ℝ) > 0 ∧ (0 : ℝ) < -12.0)),
    if_neg (by norm_num : ¬ ((0.0 : ℝ) > 0 ∧ (0 : ℝ) > 12.0))]
  rw [interp_eval_fairway_20]
  norm_num

theorem draw_sample_eval_B :
    draw_sample (105 - 100) 10 10 "fairway" 1 0.0 0.0 0.0 0.0 1.0 12.0
      ((1.5 : ℝ), (0 : ℝ)) = 2.65 := by
  simp only [draw_sample]
  have hde : (105 : ℝ) - 100 + 10 * (1.5 : ℝ) = 20 := by norm_num
  have hle : (0 : ℝ) + 10 * (0 : ℝ) = 0 := by norm_num
  rw [hde, hle]
  rw [show Real.sqrt ((20 : ℝ) ^ 2 + (0 : ℝ) ^ 2) = 20 from by
    rw [show ((20 : ℝ) ^ 2 + (0 : ℝ) ^ 2) = 20 ^ 2 by norm_num]
    exact Real.sqrt_sq (by norm_num)]
  rw [if_neg (by norm_num : ¬ ((20 : ℝ) ≤ 5.0))]
  rw [if_neg (by norm_num : ¬ ((0.0 : ℝ) > 0 ∧ (20 : ℝ) < -5.0)),
    if_neg (by norm_num : ¬ ((0.0 : ℝ) > 0 ∧ (20 : ℝ) > 5.0)),
    if_neg (by norm_num : ¬ ((0.0 : ℝ) > 0 ∧ (0 : ℝ) < -12.0)),
    if_neg (by norm_num : ¬ ((0.0 : ℝ) > 0 ∧ (0 : ℝ) > 12.0))]
  rw [interp_eval_fairway_20]
  norm_num

theorem sim_eval_A :
    (simulate_candidate_sg ⟨"PW", "Full", "Stock", "scoring_wedge", 105.5, 105.5⟩ 100
      "None" "None" "None" "None" "Balanced" 100 "fairway" 1 "Medium" 0 0
      [((2.9 : ℝ), (0 : ℝ))] 1).2 = -0.275 := by
  simp only [simulate_candidate_sg, List.map_cons, List.map_nil, List.sum_cons,
    List.sum_nil, List.length_cons, List.length_nil, ite_self]
  rw [show trouble_severity "None" = 0.0 from rfl,
    show strategy_penalty_multiplier "Balanced" = 1.0 from rfl,
    side_threshold_zero, effective_sigma_wedge, effective_sigma_wedge_lat]
  rw [draw_sample_eval_A, interp_eval_fairway_100]
  norm_num

theorem sim_eval_B :
    (simulate_candidate_sg ⟨"3W", "Full", "Stock", "long", 105, 105⟩ 100
      "None" "None" "None" "None" "Balanced" 100 "fairway" 1 "Medium" 0 0
      [((1.5 : ℝ), (0 : ℝ))] 1).2 = -0.275 := by
  simp only [simulate_candidate_sg, List.map_cons, List.map_nil, List.sum_cons,
    List.sum_nil, List.length_cons, List.length_nil, ite_self]
  rw [show trouble_severity "None" = 0.0 from rfl,
    show strategy_penalty_multiplier "Balanced" = 1.0 from rfl,
    side_threshold_zero, effective_sigma_long, effective_sigma_long_lat]
  rw [draw_sample_eval_B, interp_eval_fairway_100]
  norm_num

/-- The first evaluated candidate of the C1 counterexample run: a wedge shot
105.5 yards total against a 100-yard target. -/
noncomputable def evalA : Ranked :=
  evaluate_candidate 100 "None" "None" "None" "None" "Medium" "Balanced" 100 "fairway"
    1 0 0 1 [((2.9 : ℝ), (0 : ℝ))] ⟨"PW", "Full", "Stock", "scoring_wedge", 105.5, 105.5⟩

/-- The second evaluated candidate of the C1 counterexample run: a long-club
shot 105 yards total against a 100-yard target. -/
noncomputable def evalB : Ranked :=
  evaluate_candidate 100 "None" "None" "None" "None" "Medium" "Balanced" 100 "fairway"
    1 0 0 1 [((1.5 : ℝ), (0 : ℝ))] ⟨"3W", "Full", "Stock", "long", 105, 105⟩

/-- The concrete recommendation run of the C1 counterexample. -/
noncomputable def recommendC1 : List Ranked :=
  recommend_shots_with_sg 100
    [⟨"PW", "Full", "Stock", "scoring_wedge", 105.5, 105.5⟩,
     ⟨"3W", "Full", "Stock", "long", 105, 105⟩]
    "None" "None" "None" "None" "Medium" "Balanced" 100 "fairway" 0 0 1 0 0
    (fun i => if i = 0 then [((2.9 : ℝ), (0 : ℝ))] else [((1.5 : ℝ), (0 : ℝ))]) 10 1

theorem evalA_sg : evalA.sg = -0.275 := by
  rw [show evalA.sg =
    (simulate_candidate_sg ⟨"PW", "Full", "Stock", "scoring_wedge", 105.5, 105.5⟩ 100
      "None" "None" "None" "None" "Balanced" 100 "fairway" 1 "Medium" 0 0
      [((2.9 : ℝ), (0 : ℝ))] 1).2 from rfl, sim_eval_A]

theorem evalB_sg : evalB.sg = -0.275 := by
  rw [show evalB.sg =
    (simulate_candidate_sg ⟨"3W", "Full", "Stock", "long", 105, 105⟩ 100
      "None" "None" "None" "None" "Balanced" 100 "fairway" 1 "Medium" 0 0
      [((1.5 : ℝ), (0 : ℝ))] 1).2 from rfl, sim_eval_B]

theorem evalA_score : evalA.score = -6.5 := by
  rw [show evalA.score =
    -|(105.5 : ℝ) - 100| - 0.2 * get_dispersion_sigma "scoring_wedge" from rfl,
    show get_dispersion_sigma "scoring_wedge" = 5.0 from rfl]
  rw [show |(105.5 : ℝ) - 100| = 5.5 from by rw [abs_of_nonneg (by norm_num)]; norm_num]
  norm_num

theorem evalB_score : evalB.score = -7 := by
  rw [show evalB.score =
    -|(105 : ℝ) - 100| - 0.2 * get_dispersion_sigma "long" from rfl,
    show get_dispersion_sigma "long" = 10.0 from rfl]
  rw [show |(105 : ℝ) - 100| = 5 from by rw [abs_of_nonneg (by norm_num)]; norm_num]
  norm_num

theorem evalA_diff : |evalA.diff| = 5.5 := by
  rw [show evalA.diff = (105.5 : ℝ) - 100 from rfl, abs_of_nonneg (by norm_num)]
  norm_num

theorem evalB_diff : |evalB.diff| = 5 := by
  rw [show evalB.diff = (105 : ℝ) - 100 from rfl, abs_of_nonneg (by norm_num)]
  norm_num

theorem recommendC1_eval : recommendC1 = [evalA, evalB] := by
  have hfilt : filter_candidates 100
      [⟨"PW", "Full", "Stock", "scoring_wedge", 105.5, 105.5⟩,
       ⟨"3W", "Full", "Stock", "long", 105, 105⟩] =
      [⟨"PW", "Full", "Stock", "scoring_wedge", 105.5, 105.5⟩,
       ⟨"3W", "Full", "Stock", "long", 105, 105⟩] := by
    simp only [filter_candidates]
    rw [if_neg (by norm_num : ¬ ((105.5 : ℝ) < 0.5 * 100)),
      if_neg (by norm_num : ¬ ((105.5 : ℝ) > 1.5 * 100)),
      if_neg (by norm_num : ¬ ((105 : ℝ) < 0.5 * 100)),
      if_neg (by norm_num : ¬ ((105 : ℝ) > 1.5 * 100))]
  have hr : rankGE evalA evalB :=
    Or.inr ⟨evalA_sg.trans evalB_sg.symm, by rw [evalA_score, evalB_score]; norm_num⟩
  unfold recommendC1
  simp only [recommend_shots_with_sg, hfilt]
  rw [show List.enum
      [(⟨"PW", "Full", "Stock", "scoring_wedge", 105.5, 105.5⟩ : Candidate),
       ⟨"3W", "Full", "Stock", "long", 105, 105⟩] =
    [((0 : ℕ), (⟨"PW", "Full", "Stock", "scoring_wedge", 105.5, 105.5⟩ : Candidate)),
     ((1 : ℕ), ⟨"3W", "Full", "Stock", "long", 105, 105⟩)] from rfl]
  simp only [List.map_cons, List.map_nil]
  simp only [if_true]
  rw [if_neg (by norm_num : ¬ ((1 : ℕ) = 0))]
  simp only [List.insertionSort, List.orderedInsert]
  split_ifs with hcond
  · exact List.take_of_length_le (by norm_num)
  · exact absurd hr hcond

/-- C1 counterexample: a concrete run in which the first two returned entries
tie exactly on strokes-gained but the first has the strictly larger absolute
distance error (5.5 vs 5), because the tie is broken by the legacy score
(which also rewards the smaller dispersion sigma), not by smaller |diff|. -/
theorem C1_counterexample :
    recommendC1 = [evalA, evalB] ∧ evalA.sg = evalB.sg ∧ |evalB.diff| < |evalA.diff| := by
  refine ⟨recommendC1_eval, evalA_sg.trans evalB_sg.symm, ?_⟩
  rw [evalA_diff, evalB_diff]
  norm_num

theorem scale_value_nonneg (b s : ℝ) (hb : 0 ≤ b) (hs : 0 ≤ s) : 0 ≤ scale_value b s :=
  mul_nonneg hb (Real.rpow_nonneg (div_nonneg hs (by norm_num)) _)

theorem estimate_roll_from_spin_nonneg (br sp : ℝ) (gf cat : String) :
    0 ≤ estimate_roll_from_spin br sp gf cat := by
  simp only [estimate_roll_from_spin]
  exact le_trans (by norm_num) (le_max_left 0.0 _)

theorem FULL_WEDGE_CARRIES_nonneg (club : String) : 0 ≤ FULL_WEDGE_CARRIES club := by
  simp only [FULL_WEDGE_CARRIES]
  split_ifs <;> norm_num

theorem shot_multiplier_nonneg (st : String) : 0 ≤ shot_multiplier st := by
  simp only [shot_multiplier]
  split_ifs <;> norm_num

theorem wedge_profile_carry_nonneg (club st : String) (m : ℝ)
    (hm : wedge_profile_carry club st = some m) : 0 ≤ m := by
  simp only [wedge_profile_carry] at hm
  split_ifs at hm <;>
    first
      | exact Option.noConfusion hm
      | (rw [Option.some.injEq] at hm; rw [← hm]; norm_num)

/-- C8: for every positive driver reference speed (and any green-firmness
label for the full-bag rows), every shot produced by the bag builder — both
full-swing rows and candidate shots including the wedge scoring shots —
satisfies `total ≥ carry ≥ 0`. -/
theorem C8_candidate_distances (speed : ℝ) (hs : 0 < speed) (firm : String) :
    (∀ r ∈ build_full_bag speed firm, 0 ≤ r.carry ∧ r.carry ≤ r.total) ∧
    (∀ c ∈ (build_all_candidate_shots speed).1, 0 ≤ c.carry ∧ c.carry ≤ c.total) := by
  have hbag : ∀ (gfl : String), ∀ r ∈ build_full_bag speed gfl,
      0 ≤ r.carry ∧ r.carry ≤ r.total := by
    intro gfl r hr
    rw [build_full_bag, List.mem_map] at hr
    obtain ⟨e, he, rfl⟩ := hr
    refine ⟨?_, le_add_of_nonneg_right (estimate_roll_from_spin_nonneg _ _ _ _)⟩
    refine scale_value_nonneg _ _ ?_ hs.le
    fin_cases he <;> norm_num
  have hscoring : ∀ c ∈ build_scoring_shots speed, 0 ≤ c.carry ∧ c.carry ≤ c.total := by
    intro c hc
    rw [build_scoring_shots, List.mem_map] at hc
    obtain ⟨e, he, rfl⟩ := hc
    have hm : 0 ≤ (match wedge_profile_carry e.1 e.2.1 with
        | some m => scale_value (FULL_WEDGE_CARRIES e.1) speed * m
        | none => scale_value (FULL_WEDGE_CARRIES e.1) speed * shot_multiplier e.2.1) := by
      cases hw : wedge_profile_carry e.1 e.2.1 with
      | some m =>
        exact mul_nonneg (scale_value_nonneg _ _ (FULL_WEDGE_CARRIES_nonneg e.1) hs.le)
          (wedge_profile_carry_nonneg e.1 e.2.1 m hw)
      | none =>
        exact mul_nonneg (scale_value_nonneg _ _ (FULL_WEDGE_CARRIES_nonneg e.1) hs.le)
          (shot_multiplier_nonneg e.2.1)
    exact ⟨hm, le_rfl⟩
  refine ⟨hbag firm, ?_⟩
  intro c hc
  simp only [build_all_candidate_shots] at hc
  rcases List.mem_append.mp hc with hleft | hright
  · rw [List.mem_map] at hleft
    obtain ⟨row, hrow, rfl⟩ := hleft
    exact hbag "Medium" row (List.mem_filter.mp hrow).1
  · exact hscoring c hright

/-- C8 witness: the distance-invariant theorem instantiated at 100 mph with
soft greens. -/
theorem C8_candidate_distances_witness :
    (0 : ℝ) < 100 ∧
    ((∀ r ∈ build_full_bag 100 "Soft", 0 ≤ r.carry ∧ r.carry ≤ r.total) ∧
     (∀ c ∈ (build_all_candidate_shots 100).1, 0 ≤ c.carry ∧ c.carry ≤ c.total)) :=
  ⟨by norm_num, C8_candidate_distances 100 (by norm_num) "Soft"⟩

/-- C10: two recommendation queries with identical inputs and identical
random draws that differ only in `front_yards`, `back_yards`,
`pin_lateral_offset` or `green_firmness_label` return identical results:
those four parameters never influence any evaluated candidate. -/
theorem C10_unused_inputs_noninterference (target_total : ℝ)
    (candidates : List Candidate)
    (shortT longT leftT rightT strategy : String) (sd : ℝ) (ssurf : String)
    (skill gw : ℝ) (zdraws : ℕ → List (ℝ × ℝ)) (top_n : ℕ) (pf : ℝ)
    (gfirm1 gfirm2 : String) (fy1 fy2 bys1 bys2 po1 po2 : ℝ) :
    recommend_shots_with_sg target_total candidates shortT longT leftT rightT gfirm1
        strategy sd ssurf fy1 bys1 skill po1 gw zdraws top_n pf =
      recommend_shots_with_sg target_total candidates shortT longT leftT rightT gfirm2
        strategy sd ssurf fy2 bys2 skill po2 gw zdraws top_n pf := rfl

end GolfCaddy
